import Mathlib

/-!
Verification of the CockroachDB plan-gist decoder.

A shallow embedding of the `gistdecoder` Go package: the byte cursor
(`readUvarint`, `readVarint`), the primitive field decoders, the operator
body decoder, the plan stack machine (`decodePlanGistBytes`, modelling
`DecodePlanGist` from the byte buffer onward), and the tree formatter
(`formatNode`, `FormatPlan`).  Bytes are natural numbers `< 256`; Go's
`uint64` arithmetic is `Nat` with explicit `% 2 ^ 64`; `*Node` pointers
that may be nil are `Option Node`; a Go `panic` escaping the decoder is
the `.error` branch of `Except String` (surfaced as `Outcome.panic`),
while an error value returned by `DecodePlanGist` is `Outcome.err`.
-/

namespace GistDecoder

/-! ## Byte cursor: unsigned varints (`binary.ReadUvarint`)

`readUvarintAux bs i s x` models one pass of the `binary.ReadUvarint`
loop over the remaining bytes `bs`, with loop counter `i`, shift `s`, and
accumulator `x` (a `uint64`, so ORs are taken `% 2 ^ 64`).  `none` models
the error return (EOF or 10-byte/last-byte overflow); Go's
`MaxVarintLen64` is 10, so the loop overflows once `i` reaches 9 with a
continuation byte, and a final 10th byte `> 1` also overflows. -/
def readUvarintAux : List Nat → Nat → Nat → Nat → Option (Nat × List Nat)
  | [], _, _, _ => none
  | b :: rest, i, s, x =>
    if b < 0x80 then
      if i = 9 ∧ b > 1 then none
      else some (x ||| ((b <<< s) % 2 ^ 64), rest)
    else if i = 9 then none
    else readUvarintAux rest (i + 1) (s + 7) (x ||| (((b % 0x80) <<< s) % 2 ^ 64))

/-- `binary.ReadUvarint` on a byte list: the value and the remaining bytes. -/
def readUvarint (bs : List Nat) : Option (Nat × List Nat) :=
  readUvarintAux bs 0 0 0

/-- The zig-zag step of `binary.ReadVarint`: `x := int64(ux >> 1)`,
complemented (`^x = -x-1`) when the low bit of `ux` is set. -/
def zigzagDecode (u : Nat) : Int :=
  if u % 2 = 1 then -((u >>> 1 : Nat) : Int) - 1 else ((u >>> 1 : Nat) : Int)

/-- `binary.ReadVarint` on a byte list. -/
def readVarint (bs : List Nat) : Option (Int × List Nat) :=
  match readUvarint bs with
  | none => none
  | some (u, rest) => some (zigzagDecode u, rest)

/-- Modelled from the spec: the standard base-128 little-endian unsigned
varint encoder (7 payload bits per byte, high bit = continuation), the
inverse of `readUvarint`.  The repository contains no encoder; the spec's
round-trip property (§8) requires one. -/
def writeUvarint (u : Nat) : List Nat :=
  if u < 0x80 then [u]
  else (u % 0x80 + 0x80) :: writeUvarint (u / 0x80)
termination_by u
decreasing_by exact Nat.div_lt_self (by omega) (by omega)

/-- Modelled from the spec: the zig-zag map sending `x ≥ 0` to `2x` and
`x < 0` to `2(-x) - 1`, so that even codes are nonnegative and odd codes
negative, as §4.1 of the spec describes. -/
def zigzagEncode (x : Int) : Nat :=
  if 0 ≤ x then 2 * x.toNat else 2 * (-x).toNat - 1

/-- Modelled from the spec: the signed-varint encoder
(`encodeSignedVarint` in the spec's round-trip property). -/
def encodeSignedVarint (x : Int) : List Nat :=
  writeUvarint (zigzagEncode x)

/-! ## Data model

`Node` mirrors the Go `Node` struct: the operator byte, the `args` map
(modelled as an insertion-ordered association list — the Go map is keyed
the same way, and every consumer looks values up by key), and the child
pointers, where a nil `*Node` is `none`. -/

inductive GoVal where
  | vInt (n : Int)
  | vStr (s : String)
  | vBool (b : Bool)

structure Node where
  op : Nat
  args : List (String × GoVal)
  children : List (Option Node)

/-- Decoder state: the unread remainder of the byte buffer (a
`bytes.Reader` only ever exposes its unread suffix) and the node stack. -/
structure PState where
  rem : List Nat
  stack : List Node

/-- The two optional resolver callbacks; `none` models a nil function. -/
structure Lookups where
  tableFn : Option (Int → String)
  indexFn : Option (Int → Int → String)

def noLookups : Lookups := ⟨none, none⟩

/-! ## Operator codes (positions in the Go `iota` enumeration) -/

def unknownOp : Nat := 0
def scanOp : Nat := 1
def valuesOp : Nat := 2
def filterOp : Nat := 3
def invertedFilterOp : Nat := 4
def simpleProjectOp : Nat := 5
def serializingProjectOp : Nat := 6
def renderOp : Nat := 7
def hashJoinOp : Nat := 9
def mergeJoinOp : Nat := 10
def groupByOp : Nat := 11
def scalarGroupByOp : Nat := 12
def distinctOp : Nat := 13
def hashSetOpOp : Nat := 14
def streamingSetOpOp : Nat := 15
def unionAllOp : Nat := 16
def sortOp : Nat := 17
def indexJoinOp : Nat := 19
def lookupJoinOp : Nat := 20
def invertedJoinOp : Nat := 21
def limitOp : Nat := 23
def topKOp : Nat := 24
def insertOp : Nat := 31
def updateOp : Nat := 33
def upsertOp : Nat := 34
def deleteOp : Nat := 35
def errorIfRowsOp : Nat := 42

/-! ## Primitive field decoders

Each is a function `PState → Except String (α × PState)`; `.error`
models the Go `panic` raised on a failed read. -/

def bindD {α β : Type} (m : Except String (α × PState))
    (f : α → PState → Except String (β × PState)) : Except String (β × PState) :=
  match m with
  | .error e => .error e
  | .ok (a, s) => f a s

/-- `planGistDecoder.decodeInt` (via `binary.ReadVarint`). -/
def decodeIntS (s : PState) : Except String (Int × PState) :=
  match readVarint s.rem with
  | none => .error "decode error"
  | some (v, rest) => .ok (v, { s with rem := rest })

/-- `planGistDecoder.decodeByte`. -/
def decodeByteS (s : PState) : Except String (Nat × PState) :=
  match s.rem with
  | [] => .error "decode error"
  | b :: rest => .ok (b, { s with rem := rest })

/-- `planGistDecoder.decodeBool` (`decodeByte() != 0`). -/
def decodeBoolS (s : PState) : Except String (Bool × PState) :=
  bindD (decodeByteS s) fun b s1 => .ok (decide (b ≠ 0), s1)

/-- `planGistDecoder.decodeUvarint` (via `binary.ReadUvarint`). -/
def decodeUvarintS (s : PState) : Except String (Nat × PState) :=
  match readUvarint s.rem with
  | none => .error "decode error"
  | some (v, rest) => .ok (v, { s with rem := rest })

def tableNameOf (lk : Lookups) (id : Int) : String :=
  match lk.tableFn with
  | none => "?"
  | some f => if f id ≠ "" then f id else "?"

def indexNameOf (lk : Lookups) (tid id : Int) : String :=
  match lk.indexFn with
  | none => "?"
  | some f => if f tid id ≠ "" then f tid id else "?"

/-- `planGistDecoder.decodeTable`: id (`decodeID` = `decodeInt`) and display name. -/
def decodeTable (lk : Lookups) (s : PState) : Except String ((Int × String) × PState) :=
  bindD (decodeIntS s) fun id s1 => .ok ((id, tableNameOf lk id), s1)

/-- `planGistDecoder.decodeIndex` (scoped to a table id). -/
def decodeIndex (lk : Lookups) (tid : Int) (s : PState) :
    Except String ((Int × String) × PState) :=
  bindD (decodeIntS s) fun id s1 => .ok ((id, indexNameOf lk tid id), s1)

/-- The `length`-many `(start, end)` uvarint pairs of `decodeIntSet`. -/
def decodeRangePairs : Nat → PState → Except String (Unit × PState)
  | 0, s => .ok ((), s)
  | k + 1, s =>
    bindD (decodeUvarintS s) fun _ s1 =>
    bindD (decodeUvarintS s1) fun _ s2 =>
    decodeRangePairs k s2

/-- `planGistDecoder.decodeIntSet`: a length uvarint, then either one
bitmap uvarint (length 0) or `length` range pairs. -/
def decodeIntSetS (s : PState) : Except String (Unit × PState) :=
  bindD (decodeUvarintS s) fun len s1 =>
    if len = 0 then bindD (decodeUvarintS s1) fun _ s2 => .ok ((), s2)
    else decodeRangePairs len s1

/-- The params map `decodeScanParams` builds from the three decoded ints. -/
def scanParamsOf (numSpans numInvertedSpans hardLimit : Int) : List (String × GoVal) :=
  (if numSpans > 0 then
    [("spans", GoVal.vStr (if numSpans = 1 then "1 span" else toString numSpans ++ " spans"))]
   else []) ++
  (if numInvertedSpans > 0 then [("inverted_constraint", GoVal.vBool true)] else []) ++
  (if hardLimit ≠ 0 then [("limit", GoVal.vStr "limited")] else [])

/-- `planGistDecoder.decodeScanParams`. -/
def decodeScanParamsS (s : PState) : Except String (List (String × GoVal) × PState) :=
  bindD (decodeIntSetS s) fun _ s1 =>
  bindD (decodeIntS s1) fun numSpans s2 =>
  bindD (decodeIntS s2) fun numInvertedSpans s3 =>
  bindD (decodeIntS s3) fun hardLimit s4 =>
  .ok (scanParamsOf numSpans numInvertedSpans hardLimit, s4)

/-- `decodeNodeColumnOrdinals`: `none` models the nil slice returned for a
negative length, `some l` a slice of length `l` (only lengths are used). -/
def decodeNodeColumnOrdinalsS (s : PState) : Except String (Option Nat × PState) :=
  bindD (decodeIntS s) fun l s1 =>
    .ok (if l < 0 then none else some l.toNat, s1)

/-- Go `len` of the ordinal slice (`len(nil) = 0`). -/
def ordinalsLen : Option Nat → Nat
  | none => 0
  | some l => l

/-- `decodeResultColumns` is `decodeInt`. -/
def decodeResultColumnsS (s : PState) : Except String (Int × PState) := decodeIntS s

/-- `decodeRows` is `decodeInt`. -/
def decodeRowsS (s : PState) : Except String (Int × PState) := decodeIntS s

/-- `decodeJoinType`: one byte through the fixed 8-entry table. -/
def joinTypeName (jt : Nat) : String :=
  if jt = 0 then "inner" else if jt = 1 then "left outer"
  else if jt = 2 then "right outer" else if jt = 3 then "full outer"
  else if jt = 4 then "semi" else if jt = 5 then "anti"
  else if jt = 6 then "intersect all" else if jt = 7 then "except all"
  else "join type " ++ toString jt

def decodeJoinTypeS (s : PState) : Except String (String × PState) :=
  bindD (decodeByteS s) fun jt s1 => .ok (joinTypeName jt, s1)

/-- `planGistDecoder.popChild`: nil (`none`) when the stack is empty. -/
def popChildS (s : PState) : Option Node × PState :=
  match s.stack with
  | [] => (none, s)
  | n :: rest => (some n, { s with stack := rest })

/-! ## Operator body decoder (`decodeOperatorBody`) -/

def decodeOperatorBody (lk : Lookups) (op : Nat) (s : PState) :
    Except String (Node × PState) :=
  if op = scanOp then
    bindD (decodeTable lk s) fun t s1 =>
    bindD (decodeIndex lk t.1 s1) fun ix s2 =>
    bindD (decodeScanParamsS s2) fun params s3 =>
    .ok ({ op := op,
           args := [("table", GoVal.vStr t.2), ("index", GoVal.vStr ix.2),
                    ("table_id", GoVal.vInt t.1), ("index_id", GoVal.vInt ix.1)] ++ params,
           children := [] }, s3)
  else if op = valuesOp then
    bindD (decodeRowsS s) fun numRows s1 =>
    bindD (decodeResultColumnsS s1) fun numCols s2 =>
    .ok ({ op := op,
           args := [("rows", GoVal.vInt numRows), ("columns", GoVal.vInt numCols)],
           children := [] }, s2)
  else if op = filterOp then
    let (c, s1) := popChildS s
    .ok ({ op := op, args := [], children := [c] }, s1)
  else if op = invertedFilterOp then
    let (c, s1) := popChildS s
    .ok ({ op := op, args := [], children := [c] }, s1)
  else if op = simpleProjectOp ∨ op = serializingProjectOp then
    bindD (decodeNodeColumnOrdinalsS s) fun _ s1 =>
    let (c, s2) := popChildS s1
    .ok ({ op := op, args := [], children := [c] }, s2)
  else if op = renderOp then
    bindD (decodeResultColumnsS s) fun numCols s1 =>
    let (c, s2) := popChildS s1
    .ok ({ op := op, args := [("columns", GoVal.vInt numCols)], children := [c] }, s2)
  else if op = hashJoinOp then
    bindD (decodeJoinTypeS s) fun joinType s1 =>
    bindD (decodeNodeColumnOrdinalsS s1) fun leftEqCols s2 =>
    bindD (decodeNodeColumnOrdinalsS s2) fun rightEqCols s3 =>
    bindD (decodeBoolS s3) fun leftKey s4 =>
    bindD (decodeBoolS s4) fun rightKey s5 =>
    let (r, s6) := popChildS s5
    let (l, s7) := popChildS s6
    .ok ({ op := op,
           args := [("type", GoVal.vStr joinType),
                    ("left_eq_cols", GoVal.vInt (ordinalsLen leftEqCols)),
                    ("right_eq_cols", GoVal.vInt (ordinalsLen rightEqCols))] ++
                   (if leftKey then [("left_key", GoVal.vBool true)] else []) ++
                   (if rightKey then [("right_key", GoVal.vBool true)] else []),
           children := [l, r] }, s7)
  else if op = mergeJoinOp then
    bindD (decodeJoinTypeS s) fun joinType s1 =>
    bindD (decodeBoolS s1) fun _ s2 =>
    bindD (decodeBoolS s2) fun _ s3 =>
    let (r, s4) := popChildS s3
    let (l, s5) := popChildS s4
    .ok ({ op := op, args := [("type", GoVal.vStr joinType)], children := [l, r] }, s5)
  else if op = groupByOp then
    bindD (decodeNodeColumnOrdinalsS s) fun _ s1 =>
    let (c, s2) := popChildS s1
    .ok ({ op := op, args := [], children := [c] }, s2)
  else if op = scalarGroupByOp then
    let (c, s1) := popChildS s
    .ok ({ op := op, args := [], children := [c] }, s1)
  else if op = distinctOp then
    let (c, s1) := popChildS s
    .ok ({ op := op, args := [], children := [c] }, s1)
  else if op = sortOp then
    let (c, s1) := popChildS s
    .ok ({ op := op, args := [], children := [c] }, s1)
  else if op = limitOp then
    let (c, s1) := popChildS s
    .ok ({ op := op, args := [], children := [c] }, s1)
  else if op = topKOp then
    bindD (decodeIntS s) fun k s1 =>
    let (c, s2) := popChildS s1
    .ok ({ op := op, args := [("k", GoVal.vInt k)], children := [c] }, s2)
  else if op = indexJoinOp then
    bindD (decodeTable lk s) fun t s1 =>
    bindD (decodeNodeColumnOrdinalsS s1) fun _ s2 =>
    let (c, s3) := popChildS s2
    .ok ({ op := op,
           args := [("table", GoVal.vStr t.2), ("table_id", GoVal.vInt t.1)],
           children := [c] }, s3)
  else if op = lookupJoinOp then
    bindD (decodeJoinTypeS s) fun joinType s1 =>
    bindD (decodeTable lk s1) fun t s2 =>
    bindD (decodeIndex lk t.1 s2) fun ix s3 =>
    bindD (decodeNodeColumnOrdinalsS s3) fun _ s4 =>
    bindD (decodeBoolS s4) fun _ s5 =>
    let (c, s6) := popChildS s5
    .ok ({ op := op,
           args := [("type", GoVal.vStr joinType), ("table", GoVal.vStr t.2),
                    ("index", GoVal.vStr ix.2)],
           children := [c] }, s6)
  else if op = invertedJoinOp then
    bindD (decodeJoinTypeS s) fun joinType s1 =>
    bindD (decodeTable lk s1) fun t s2 =>
    bindD (decodeIndex lk t.1 s2) fun ix s3 =>
    bindD (decodeNodeColumnOrdinalsS s3) fun _ s4 =>
    let (c, s5) := popChildS s4
    .ok ({ op := op,
           args := [("type", GoVal.vStr joinType), ("table", GoVal.vStr t.2),
                    ("index", GoVal.vStr ix.2)],
           children := [c] }, s5)
  else if op = unionAllOp ∨ op = hashSetOpOp ∨ op = streamingSetOpOp then
    let (r, s1) := popChildS s
    let (l, s2) := popChildS s1
    .ok ({ op := op, args := [], children := [l, r] }, s2)
  else if op = insertOp then
    bindD (decodeTable lk s) fun t s1 =>
    bindD (decodeIntSetS s1) fun _ s2 =>
    bindD (decodeIntSetS s2) fun _ s3 =>
    bindD (decodeIntSetS s3) fun _ s4 =>
    bindD (decodeBoolS s4) fun _ s5 =>
    let (c, s6) := popChildS s5
    .ok ({ op := op,
           args := [("table", GoVal.vStr t.2), ("table_id", GoVal.vInt t.1)],
           children := [c] }, s6)
  else if op = updateOp then
    bindD (decodeTable lk s) fun t s1 =>
    let (c, s2) := popChildS s1
    .ok ({ op := op,
           args := [("table", GoVal.vStr t.2), ("table_id", GoVal.vInt t.1)],
           children := [c] }, s2)
  else if op = deleteOp then
    bindD (decodeTable lk s) fun t s1 =>
    bindD (decodeIntSetS s1) fun _ s2 =>
    bindD (decodeIntSetS s2) fun _ s3 =>
    bindD (decodeBoolS s3) fun _ s4 =>
    let (c, s5) := popChildS s4
    .ok ({ op := op,
           args := [("table", GoVal.vStr t.2), ("table_id", GoVal.vInt t.1)],
           children := [c] }, s5)
  else if op = upsertOp then
    bindD (decodeTable lk s) fun t s1 =>
    bindD (decodeIntSetS s1) fun _ s2 =>
    bindD (decodeIntSetS s2) fun _ s3 =>
    bindD (decodeIntSetS s3) fun _ s4 =>
    bindD (decodeIntSetS s4) fun _ s5 =>
    bindD (decodeIntSetS s5) fun _ s6 =>
    bindD (decodeBoolS s6) fun _ s7 =>
    let (c, s8) := popChildS s7
    .ok ({ op := op,
           args := [("table", GoVal.vStr t.2), ("table_id", GoVal.vInt t.1)],
           children := [c] }, s8)
  else if op = errorIfRowsOp then
    let (c, s1) := popChildS s
    .ok ({ op := op, args := [], children := [c] }, s1)
  else
    if s.stack.length > 0 then
      let (c, s1) := popChildS s
      .ok ({ op := op, args := [], children := [c] }, s1)
    else
      .ok ({ op := op, args := [], children := [] }, s)

/-! ## Plan stack machine -/

/-- `planGistDecoder.decodeOp`: a failed opcode read (EOF) and the
terminator byte both yield `unknownOp`; otherwise decode the body and
push the node. -/
def decodeOp (lk : Lookups) (s : PState) : Except String (Nat × PState) :=
  match s.rem with
  | [] => .ok (unknownOp, s)
  | b :: rest =>
    if b = 0 then .ok (unknownOp, { s with rem := rest })
    else
      match decodeOperatorBody lk b { s with rem := rest } with
      | .error e => .error e
      | .ok (n, s1) => .ok (n.op, { s1 with stack := n :: s1.stack })

/-- The decode loop of `DecodePlanGist`.  `fuel` bounds the number of
iterations; every iteration that does not break consumes at least the
one opcode byte, so `DecodePlanGist` below runs it with fuel
`rem.length + 1`, which can never be exhausted before the natural break. -/
def decodeLoop (lk : Lookups) :
    Nat → PState → List (Option Node) → Except String (PState × List (Option Node))
  | 0, _, _ => .error "loop fuel exhausted"
  | fuel + 1, s, checks =>
    match decodeOp lk s with
    | .error e => .error e
    | .ok (op, s1) =>
      if op = unknownOp then .ok (s1, checks)
      else if op = errorIfRowsOp then
        let (c, s2) := popChildS s1
        decodeLoop lk fuel s2 (checks ++ [c])
      else decodeLoop lk fuel s1 checks

/-- The three ways a call to the Go `DecodePlanGist` can end: a returned
value, a returned error, or a panic escaping the function. -/
inductive Outcome (α : Type) where
  | ok (a : α)
  | err (msg : String)
  | panic (msg : String)

/-- `DecodePlanGist` from the decoded byte buffer onward (the base64
layer is outside this model): version check, decode loop, root pop, and
the synthetic check wrapper. -/
def decodePlanGistBytes (lk : Lookups) (b : List Nat) : Outcome (Option Node) :=
  match decodeIntS { rem := b, stack := [] } with
  | .error e => .panic e
  | .ok (ver, s1) =>
    if ver ≠ 1 then
      .err ("unsupported gist version " ++ toString ver ++ " (expected 1)")
    else
      match decodeLoop lk (s1.rem.length + 1) s1 [] with
      | .error e => .panic e
      | .ok (s2, checks) =>
        let (root, _) := popChildS s2
        if checks.length > 0 then
          .ok (some { op := unknownOp,
                      args := [("checks", GoVal.vInt checks.length)],
                      children := root :: checks })
        else .ok root

/-! ## Tree formatter (`formatNode` / `FormatPlan`) -/

/-- `fmt.Sprint` / the `%v` and `%s` verbs on the values stored in `args`. -/
def goSprint : GoVal → String
  | .vInt n => toString n
  | .vStr s => s
  | .vBool b => if b then "true" else "false"

def findArg : List (String × GoVal) → String → Option GoVal
  | [], _ => none
  | (k, v) :: rest, key => if k = key then some v else findArg rest key

/-- An `n.args[k]` read without the `ok` flag, printed.  A missing key is
Go's nil interface (printed as a `<nil>` placeholder by `fmt`); the
formatter only does this for keys the decoder always populates. -/
def argSprint (args : List (String × GoVal)) (k : String) : String :=
  match findArg args k with
  | some v => goSprint v
  | none => "<nil>"

/-- `strings.Contains(s, " ")`: with a single-character needle this is
exactly "some character is a space". -/
def goContainsSpace (s : String) : Bool :=
  s.data.any (fun c => c == ' ')

/-- The whitespace test of `strings.Fields`, restricted to the ASCII
whitespace characters that can occur in this package's strings. -/
def isGoSpace (c : Char) : Bool :=
  c == ' ' || c == '\t' || c == '\n' || c == '\r'

def goFieldsAux : List Char → List Char → List String
  | [], acc => if acc.isEmpty then [] else [String.mk acc.reverse]
  | c :: cs, acc =>
    if isGoSpace c then
      if acc.isEmpty then goFieldsAux cs []
      else String.mk acc.reverse :: goFieldsAux cs []
    else goFieldsAux cs (c :: acc)

/-- `strings.Fields`: the maximal runs of non-whitespace characters. -/
def goFields (s : String) : List String := goFieldsAux s.data []

/-- `strings.Split(s, "\n")`. -/
def splitNl (s : String) : List String := s.splitOn "\n"

/-- `strings.TrimSuffix(s, "\n")`. -/
def trimSuffixNl (s : String) : String :=
  if s.endsWith "\n" then s.dropRight 1 else s

/-- `strings.TrimRight(s, " ")`. -/
def trimRightSpace (s : String) : String :=
  String.mk (s.data.reverse.dropWhile (fun c => c == ' ')).reverse

/-- The inner loop that re-emits a child's lines: the first line follows
the connector, later lines get the child indentation prefix. -/
def joinIndented (childPfx : String) : List String → String
  | [] => ""
  | l :: ls => l ++ "\n" ++ String.join (ls.map (fun l2 => childPfx ++ l2 ++ "\n"))

/-- The `opNames` map; absent codes yield `""` (Go's zero value). -/
def opNameOf (op : Nat) : String :=
  match op with
  | 1 => "scan" | 2 => "values" | 3 => "filter" | 4 => "inverted filter"
  | 5 => "simple project" | 6 => "serializing project" | 7 => "render"
  | 8 => "apply join" | 9 => "hash join" | 10 => "merge join" | 11 => "group by"
  | 12 => "scalar group by" | 13 => "distinct" | 14 => "hash set op"
  | 15 => "streaming set op" | 16 => "union all" | 17 => "sort" | 18 => "ordinality"
  | 19 => "index join" | 20 => "lookup join" | 21 => "inverted join"
  | 22 => "zigzag join" | 23 => "limit" | 24 => "top-k" | 25 => "max1row"
  | 26 => "project set" | 27 => "window" | 31 => "insert" | 33 => "update"
  | 34 => "upsert" | 35 => "delete" | 36 => "delete range" | 42 => "error if rows"
  | 48 => "buffer" | 49 => "scan buffer" | 50 => "recursive cte"
  | _ => ""

/-- The per-operator attribute block of `formatNode` (the `if n.op == …`
chain between the node header and the children loop). -/
def attrLines (n : Node) (attrPfx : String) : String :=
  if n.op = scanOp then
    (attrPfx ++ "table: " ++ argSprint n.args "table" ++ "@" ++
      argSprint n.args "index" ++ "\n") ++
    (match findArg n.args "spans" with
     | some v =>
       let sv := goSprint v
       if goContainsSpace sv then
         attrPfx ++ "spans: " ++
           (match goFields sv with
            | [] => ""
            | t :: _ => t) ++ "+ spans\n"
       else attrPfx ++ "spans: " ++ sv ++ "\n"
     | none => attrPfx ++ "spans: FULL SCAN\n") ++
    (match findArg n.args "limit" with
     | some v => attrPfx ++ "limit: " ++ goSprint v ++ "\n"
     | none => "")
  else if n.op = hashJoinOp ∨ n.op = mergeJoinOp ∨ n.op = lookupJoinOp then
    (match findArg n.args "type" with
     | some v => attrPfx ++ "type: " ++ goSprint v ++ "\n"
     | none => "") ++
    (match findArg n.args "table" with
     | some v => attrPfx ++ "table: " ++ goSprint v ++ "@" ++
         argSprint n.args "index" ++ "\n"
     | none => "") ++
    (match findArg n.args "left_eq_cols" with
     | some v => attrPfx ++ "equality cols: " ++ goSprint v ++ "\n"
     | none => "")
  else if n.op = indexJoinOp then
    match findArg n.args "table" with
    | some v => attrPfx ++ "table: " ++ goSprint v ++ "\n"
    | none => ""
  else if n.op = valuesOp then
    match findArg n.args "rows" with
    | some v => attrPfx ++ "size: " ++ argSprint n.args "columns" ++ " columns, " ++
        goSprint v ++ " rows\n"
    | none => ""
  else if n.op = topKOp then
    match findArg n.args "k" with
    | some v => attrPfx ++ "k: " ++ goSprint v ++ "\n"
    | none => ""
  else if n.op = insertOp ∨ n.op = updateOp ∨ n.op = deleteOp ∨ n.op = upsertOp then
    (match findArg n.args "table" with
     | some v => attrPfx ++ "table: " ++ goSprint v ++ "\n"
     | none => "") ++
    (if n.op = updateOp then attrPfx ++ "set\n" else "") ++
    (if n.children.length > 0 then trimRightSpace attrPfx ++ "\n" else "")
  else if n.op = renderOp then
    if n.children.length > 0 then trimRightSpace attrPfx ++ "\n" else ""
  else ""

mutual

/-- `formatNode`: renders one (possibly nil) node.  The `pfx` parameter
mirrors the Go `prefix` argument, which the body only passes through when
skipping a trivial projection. -/
def formatNode (o : Option Node) (pfx : String) (isLast : Bool) : String :=
  match o with
  | none => ""
  | some n =>
    if n.op = simpleProjectOp ∨ n.op = serializingProjectOp then
      match _h : n.children with
      | c :: _ => formatNode c pfx isLast
      | [] => ""
    else
      let nm := opNameOf n.op
      let shown := if nm = "" then "op_" ++ toString n.op else nm
      let attrPfx := if n.children.length > 0 then "│ " else "  "
      "• " ++ shown ++ "\n" ++ attrLines n attrPfx ++ formatChildren n.children
termination_by sizeOf o
decreasing_by
  all_goals cases n
  all_goals simp_all
  all_goals omega

/-- The children loop at the bottom of `formatNode`. -/
def formatChildren : List (Option Node) → String
  | [] => ""
  | c :: rest =>
    let childIsLast := rest.isEmpty
    let connector := if childIsLast then "└── " else "├── "
    let childPfx := if childIsLast then "    " else "│   "
    let childStr := formatNode c childPfx childIsLast
    connector ++ joinIndented childPfx (splitNl (trimSuffixNl childStr)) ++
      formatChildren rest
termination_by cs => sizeOf cs
decreasing_by
  all_goals simp_all
  all_goals omega

end

/-- `FormatPlan`: the recursive rendering behind a fixed two-space margin. -/
def FormatPlan (o : Option Node) : String :=
  match o with
  | none => ""
  | some _ =>
    String.join ((splitNl (trimSuffixNl (formatNode o "" true))).map
      (fun l => "  " ++ l ++ "\n"))

/-! ## Round-trip of the varint codec -/

theorem lor_shift_add (x c s : Nat) (hx : x < 2 ^ s) :
    x ||| (c <<< s) = x + c * 2 ^ s := by
  rw [Nat.shiftLeft_eq, Nat.lor_comm, Nat.mul_comm c (2 ^ s),
    ← Nat.mul_add_lt_is_or hx]
  omega

theorem readUvarintAux_write (u : Nat) : ∀ (i x : Nat) (rest : List Nat),
    i ≤ 9 → u < 2 ^ (64 - 7 * i) → x < 2 ^ (7 * i) →
    readUvarintAux (writeUvarint u ++ rest) i (7 * i) x =
      some (x + u * 2 ^ (7 * i), rest) := by
  induction u using Nat.strong_induction_on with
  | _ u ih =>
    intro i x rest hi hu hx
    by_cases h : u < 0x80
    · rw [writeUvarint, if_pos h]
      have hguard : ¬ (i = 9 ∧ u > 1) := by
        rintro ⟨rfl, hgt⟩
        simp only [show 64 - 7 * 9 = 1 by norm_num] at hu
        omega
      have hmod : (u <<< (7 * i)) % 2 ^ 64 = u <<< (7 * i) := by
        apply Nat.mod_eq_of_lt
        rw [Nat.shiftLeft_eq]
        calc u * 2 ^ (7 * i) < 2 ^ (64 - 7 * i) * 2 ^ (7 * i) :=
              (Nat.mul_lt_mul_right (Nat.two_pow_pos _)).mpr hu
          _ = 2 ^ 64 := by
              rw [← pow_add]
              congr 1
              omega
      simp only [List.cons_append, List.append_eq, List.nil_append, readUvarintAux,
        if_pos h, hguard, if_false, hmod, lor_shift_add x u (7 * i) hx]
    · rw [writeUvarint, if_neg h]
      have h128 : ¬ (u % 0x80 + 0x80 < 0x80) := by omega
      have hi9 : i ≠ 9 := by
        rintro rfl
        simp only [show 64 - 7 * 9 = 1 by norm_num] at hu
        omega
      have hmod2 : (((u % 0x80 + 0x80) % 0x80) <<< (7 * i)) % 2 ^ 64 =
          (u % 0x80) <<< (7 * i) := by
        rw [show (u % 0x80 + 0x80) % 0x80 = u % 0x80 by omega]
        apply Nat.mod_eq_of_lt
        rw [Nat.shiftLeft_eq]
        have h1 : u % 0x80 < 2 ^ 7 := by
          have := Nat.mod_lt u (y := 0x80) (by omega)
          omega
        have h2 : 2 ^ (7 * i) ≤ 2 ^ 56 := Nat.pow_le_pow_right (by omega) (by omega)
        calc u % 0x80 * 2 ^ (7 * i) < 2 ^ 7 * 2 ^ (7 * i) :=
              (Nat.mul_lt_mul_right (Nat.two_pow_pos _)).mpr h1
          _ ≤ 2 ^ 7 * 2 ^ 56 := Nat.mul_le_mul_left _ h2
          _ < 2 ^ 64 := by norm_num
      have hxlt : x ||| ((u % 0x80) <<< (7 * i)) = x + u % 0x80 * 2 ^ (7 * i) :=
        lor_shift_add x (u % 0x80) (7 * i) hx
      simp only [List.cons_append, List.append_eq, readUvarintAux, if_neg h128,
        if_neg hi9, hmod2, hxlt]
      have hrec := ih (u / 0x80) (Nat.div_lt_self (by omega) (by omega)) (i + 1)
        (x + u % 0x80 * 2 ^ (7 * i)) rest (by omega)
        (by
          have hle7 : 7 ≤ 64 - 7 * i := by omega
          rw [Nat.div_lt_iff_lt_mul (by omega : 0 < 0x80)]
          calc u < 2 ^ (64 - 7 * i) := hu
            _ = 2 ^ (64 - 7 * (i + 1)) * 0x80 := by
              rw [show (0x80 : Nat) = 2 ^ 7 by norm_num, ← pow_add]
              congr 1
              omega)
        (by
          have h1 : u % 0x80 ≤ 0x7f := by
            have := Nat.mod_lt u (y := 0x80) (by omega)
            omega
          have h2 : u % 0x80 * 2 ^ (7 * i) ≤ 0x7f * 2 ^ (7 * i) :=
            Nat.mul_le_mul_right _ h1
          have h3 : x + u % 0x80 * 2 ^ (7 * i) < 0x80 * 2 ^ (7 * i) := by omega
          calc x + u % 0x80 * 2 ^ (7 * i) < 0x80 * 2 ^ (7 * i) := h3
            _ = 2 ^ (7 * (i + 1)) := by
              rw [show (0x80 : Nat) = 2 ^ 7 by norm_num, ← pow_add]
              congr 1
              omega)
      rw [show 7 * i + 7 = 7 * (i + 1) by omega, hrec]
      congr 2
      have hdm := Nat.mod_add_div u 0x80
      calc x + u % 0x80 * 2 ^ (7 * i) + u / 0x80 * 2 ^ (7 * (i + 1)) =
            x + (u % 0x80 + 0x80 * (u / 0x80)) * 2 ^ (7 * i) := by
            rw [show 7 * (i + 1) = 7 * i + 7 by omega, pow_add]
            ring
        _ = x + u * 2 ^ (7 * i) := by rw [hdm]

theorem readUvarint_write (u : Nat) (hu : u < 2 ^ 64) (rest : List Nat) :
    readUvarint (writeUvarint u ++ rest) = some (u, rest) := by
  have h := readUvarintAux_write u 0 0 rest (by omega) (by simpa using hu)
    (by norm_num)
  simpa [readUvarint] using h

theorem zigzagDecode_zigzagEncode (x : Int) : zigzagDecode (zigzagEncode x) = x := by
  unfold zigzagDecode zigzagEncode
  by_cases hx : 0 ≤ x
  · rw [if_pos hx, if_neg (by omega), Nat.shiftRight_eq_div_pow, pow_one]
    omega
  · rw [if_neg hx, if_pos (by omega), Nat.shiftRight_eq_div_pow, pow_one]
    omega

theorem zigzagEncode_lt (x : Int) (h1 : -(2 ^ 63) ≤ x) (h2 : x < 2 ^ 63) :
    zigzagEncode x < 2 ^ 64 := by
  unfold zigzagEncode
  split <;> omega

theorem readVarint_encodeSignedVarint (x : Int) (h1 : -(2 ^ 63) ≤ x)
    (h2 : x < 2 ^ 63) (rest : List Nat) :
    readVarint (encodeSignedVarint x ++ rest) = some (x, rest) := by
  unfold encodeSignedVarint
  simp only [readVarint, readUvarint_write _ (zigzagEncode_lt x h1 h2) rest,
    zigzagDecode_zigzagEncode]

/-! ## State and decoder lemmas -/

theorem popChildS_eq (s : PState) :
    popChildS s = (s.stack.head?, { s with stack := s.stack.tail }) := by
  cases s with
  | mk rem stack => cases stack <;> rfl

theorem bindD_ok {α β : Type} {m : Except String (α × PState)}
    {f : α → PState → Except String (β × PState)} {y : β × PState} :
    bindD m f = .ok y ↔ ∃ a s, m = .ok (a, s) ∧ f a s = .ok y := by
  cases m with
  | error e => simp [bindD]
  | ok p =>
    cases p with
    | mk a s =>
      simp only [bindD]
      constructor
      · intro h
        exact ⟨a, s, rfl, h⟩
      · rintro ⟨a1, s1, heq, h⟩
        cases heq
        exact h

theorem readUvarint_single (a : Nat) (ha : a < 0x80) (rest : List Nat) :
    readUvarint (a :: rest) = some (a, rest) := by
  have h9 : ¬((0 : Nat) = 9 ∧ a > 1) := by omega
  have hm : (a <<< 0) % 2 ^ 64 = a := by
    rw [Nat.shiftLeft_zero]
    exact Nat.mod_eq_of_lt (by omega)
  simp [readUvarint, readUvarintAux, ha, h9, hm]
  omega

theorem readVarint_single (a : Nat) (ha : a < 0x80) (rest : List Nat) :
    readVarint (a :: rest) = some (zigzagDecode a, rest) := by
  simp [readVarint, readUvarint_single a ha rest]

theorem decodeIntS_single (a : Nat) (ha : a < 0x80) (rest : List Nat)
    (stk : List Node) :
    decodeIntS { rem := a :: rest, stack := stk } =
      .ok (zigzagDecode a, { rem := rest, stack := stk }) := by
  simp [decodeIntS, readVarint_single a ha rest]

/-! ## Digit and string lemmas for the formatter -/

theorem isGoSpace_digitChar (m : Nat) : isGoSpace (Nat.digitChar m) = false := by
  match m with
  | 0 | 1 | 2 | 3 | 4 | 5 | 6 | 7 | 8 | 9 | 10 | 11 | 12 | 13 | 14 | 15 => decide
  | n + 16 =>
    have h : Nat.digitChar (n + 16) = '*' := by
      unfold Nat.digitChar
      repeat rw [if_neg (by omega)]
    rw [h]
    decide

theorem toDigitsCore_not_space (fuel : Nat) :
    ∀ (n : Nat) (ds : List Char), (∀ c ∈ ds, isGoSpace c = false) →
      ∀ c ∈ Nat.toDigitsCore 10 fuel n ds, isGoSpace c = false := by
  induction fuel with
  | zero =>
    intro n ds h c hc
    simp only [Nat.toDigitsCore] at hc
    exact h c hc
  | succ f ih =>
    intro n ds h c hc
    simp only [Nat.toDigitsCore] at hc
    split at hc
    · rcases List.mem_cons.mp hc with rfl | hmem
      · exact isGoSpace_digitChar _
      · exact h c hmem
    · refine ih (n / 10) (Nat.digitChar (n % 10) :: ds) ?_ c hc
      intro c1 hc1
      rcases List.mem_cons.mp hc1 with rfl | hmem
      · exact isGoSpace_digitChar _
      · exact h c1 hmem

theorem toDigitsCore_length_le (fuel : Nat) :
    ∀ (n : Nat) (ds : List Char),
      ds.length ≤ (Nat.toDigitsCore 10 fuel n ds).length := by
  induction fuel with
  | zero =>
    intro n ds
    simp [Nat.toDigitsCore]
  | succ f ih =>
    intro n ds
    simp only [Nat.toDigitsCore]
    split
    · simp
    · calc ds.length ≤ (Nat.digitChar (n % 10) :: ds).length := by simp
        _ ≤ _ := ih (n / 10) _

theorem natRepr_data (n : Nat) : (Nat.repr n).data = Nat.toDigits 10 n := rfl

theorem natRepr_not_space (n : Nat) :
    ∀ c ∈ (Nat.repr n).data, isGoSpace c = false := by
  intro c hc
  rw [natRepr_data] at hc
  simp only [Nat.toDigits] at hc
  exact toDigitsCore_not_space (n + 1) n [] (by intro c1 hc1; cases hc1) c hc

theorem natRepr_ne_nil (n : Nat) : (Nat.repr n).data ≠ [] := by
  rw [natRepr_data]
  simp only [Nat.toDigits, Nat.toDigitsCore]
  split
  · simp
  · intro hnil
    have h := toDigitsCore_length_le n (n / 10) [Nat.digitChar (n % 10)]
    rw [hnil] at h
    simp at h

theorem goFieldsAux_run (cs : List Char) :
    ∀ (acc tail : List Char), (∀ c ∈ cs, isGoSpace c = false) →
      (acc ≠ [] ∨ cs ≠ []) →
      goFieldsAux (cs ++ ' ' :: tail) acc =
        String.mk (acc.reverse ++ cs) :: goFieldsAux tail [] := by
  induction cs with
  | nil =>
    intro acc tail h hne
    have hacc : acc ≠ [] := by
      rcases hne with h1 | h1
      · exact h1
      · exact absurd rfl h1
    obtain ⟨a0, acc1, rfl⟩ : ∃ a0 acc1, acc = a0 :: acc1 := by
      cases acc with
      | nil => exact absurd rfl hacc
      | cons a0 acc1 => exact ⟨a0, acc1, rfl⟩
    simp [goFieldsAux, isGoSpace]
  | cons c cs ih =>
    intro acc tail h hne
    have hc : isGoSpace c = false := h c (List.mem_cons_self c cs)
    simp only [List.cons_append, List.append_eq, goFieldsAux, hc, Bool.false_eq_true,
      if_false]
    rw [ih (c :: acc) tail (fun c1 hc1 => h c1 (List.mem_cons_of_mem c hc1))
      (Or.inl (by simp))]
    simp

theorem string_append_data (s t : String) : s ++ t = String.mk (s.data ++ t.data) := by
  cases s
  cases t
  rfl

theorem goContainsSpace_mk (r l : List Char) :
    goContainsSpace (String.mk (r ++ ' ' :: l)) = true := by
  show (r ++ ' ' :: l).any (fun c => c == ' ') = true
  simp [List.any_append]

theorem goFields_mk_spans (r : List Char) (hne : r ≠ [])
    (h : ∀ c ∈ r, isGoSpace c = false) :
    goFields (String.mk (r ++ ' ' :: "spans".data)) = [String.mk r, "spans"] := by
  show goFieldsAux (r ++ ' ' :: "spans".data) [] = _
  have h1 : goFieldsAux "spans".data [] = ["spans"] := by decide
  rw [goFieldsAux_run r [] "spans".data h (Or.inr hne), h1]
  simp

theorem toString_int_nonneg (n : Int) (hn : 0 ≤ n) :
    toString n = Nat.repr n.toNat := by
  obtain ⟨m, rfl⟩ := Int.eq_ofNat_of_zero_le hn
  rfl

/-- The `spans` value a scan decode stores is always two whitespace-separated
tokens, the first of which is the decimal span count. -/
theorem spanValue_head (ns : Int) (hns : 0 < ns) :
    goContainsSpace (if ns = 1 then "1 span" else toString ns ++ " spans") = true ∧
    ∃ t2, goFields (if ns = 1 then "1 span" else toString ns ++ " spans") =
      [toString ns, t2] := by
  by_cases h1 : ns = 1
  · subst h1
    exact ⟨by decide, "span", by decide⟩
  · rw [if_neg h1]
    have hd : (" spans" : String).data = ' ' :: ("spans" : String).data := rfl
    have hmk : toString ns ++ " spans" =
        String.mk ((toString ns).data ++ ' ' :: ("spans" : String).data) := by
      rw [string_append_data, hd]
    have hrepr : toString ns = Nat.repr ns.toNat := toString_int_nonneg ns (by omega)
    have hne : (toString ns).data ≠ [] := by
      rw [hrepr]
      exact natRepr_ne_nil _
    have hsp : ∀ c ∈ (toString ns).data, isGoSpace c = false := by
      rw [hrepr]
      exact natRepr_not_space _
    constructor
    · rw [hmk]
      exact goContainsSpace_mk _ _
    · refine ⟨"spans", ?_⟩
      rw [hmk, goFields_mk_spans _ hne hsp]

/-! ### Step lemmas for `decodePlanGistBytes` -/

theorem decodePlanGistBytes_panicVersion (lk : Lookups) (b : List Nat) (e : String)
    (h : decodeIntS { rem := b, stack := [] } = .error e) :
    decodePlanGistBytes lk b = .panic e := by
  unfold decodePlanGistBytes
  rw [h]

theorem decodePlanGistBytes_afterVersion (lk : Lookups) (b : List Nat) (ver : Int)
    (s1 : PState) (h : decodeIntS { rem := b, stack := [] } = .ok (ver, s1)) :
    decodePlanGistBytes lk b =
      if ver ≠ 1 then
        .err ("unsupported gist version " ++ toString ver ++ " (expected 1)")
      else
        match decodeLoop lk (s1.rem.length + 1) s1 [] with
        | .error e => Outcome.panic e
        | .ok (s2, checks) =>
          match popChildS s2 with
          | (root, _) =>
            if checks.length > 0 then
              Outcome.ok (some ⟨unknownOp, [("checks", GoVal.vInt checks.length)],
                root :: checks⟩)
            else Outcome.ok root := by
  unfold decodePlanGistBytes
  rw [h]

theorem decodePlanGistBytes_loopPanic (lk : Lookups) (b : List Nat) (s1 : PState)
    (e : String) (h1 : decodeIntS { rem := b, stack := [] } = .ok (1, s1))
    (h2 : decodeLoop lk (s1.rem.length + 1) s1 [] = .error e) :
    decodePlanGistBytes lk b = .panic e := by
  have e1 := decodePlanGistBytes_afterVersion lk b 1 s1 h1
  rw [if_neg (by simp)] at e1
  rw [e1, h2]

theorem decodePlanGistBytes_split (lk : Lookups) (b : List Nat) (s1 st : PState)
    (chks : List (Option Node))
    (h1 : decodeIntS { rem := b, stack := [] } = .ok (1, s1))
    (h2 : decodeLoop lk (s1.rem.length + 1) s1 [] = .ok (st, chks)) :
    decodePlanGistBytes lk b =
      if chks.length > 0 then
        .ok (some ⟨unknownOp, [("checks", GoVal.vInt chks.length)],
          st.stack.head? :: chks⟩)
      else .ok st.stack.head? := by
  have e1 := decodePlanGistBytes_afterVersion lk b 1 s1 h1
  rw [if_neg (by simp)] at e1
  have e2 : decodePlanGistBytes lk b =
      (match popChildS st with
       | (root, _) =>
         if chks.length > 0 then
           Outcome.ok (some ⟨unknownOp, [("checks", GoVal.vInt chks.length)],
             root :: chks⟩)
         else Outcome.ok root) := by
    rw [e1, h2]
  rw [e2, popChildS_eq]

/-! ## Claims

One theorem per claim of the specification audit, each stated over the
embedded decoder/formatter above. -/

/-- C1 (counterexample): the claim says an operator declaring more
children than the stack holds must make the whole decode fail with a
structural error and never attach a null child.  On the buffer
`[2, 3]` (version 1, then a `filterOp` with an empty stack)
`DecodePlanGist` instead succeeds, returning a filter node whose single
child is the nil placeholder `popChild` produced. -/
theorem claim1_counterexample :
    decodePlanGistBytes noLookups [2, 3] =
      .ok (some ⟨filterOp, [], [none]⟩) := rfl

/-- C1 (amended): on stack underflow `popChild` returns a nil
placeholder and a child-consuming operator body (here `filterOp`, the
cited case) attaches it and succeeds; no structural decode error is
raised. -/
theorem claim1_amended (lk : Lookups) (s : PState) (h : s.stack = []) :
    popChildS s = (none, s) ∧
    decodeOperatorBody lk filterOp s = .ok (⟨filterOp, [], [none]⟩, s) := by
  cases s with
  | mk rem stack =>
    simp only at h
    subst h
    exact ⟨rfl, rfl⟩

theorem claim1_amended_witness :
    popChildS ⟨[7], []⟩ = (none, ⟨[7], []⟩) ∧
    decodeOperatorBody noLookups filterOp ⟨[7], []⟩ =
      .ok (⟨filterOp, [], [none]⟩, ⟨[7], []⟩) :=
  claim1_amended noLookups ⟨[7], []⟩ rfl

/-- C2: the claim says a buffer exhausted mid-read (or an ill-formed
varint) makes `DecodePlanGist` return a single error value, with no
uncaught crash escaping the entry point.  The code instead panics — Go's
`decodeInt` calls `panic` and `DecodePlanGist` has no `recover` — so on
`[2, 1]` (version 1, then a scan whose table-id varint hits EOF) the
outcome is an escaping panic, not a returned error. -/
theorem claim2_panic_eval :
    decodePlanGistBytes noLookups [2, 1] = .panic "decode error" := rfl

/-- C5: whenever the version varint decodes to anything other than `1`,
`DecodePlanGist` returns the version-mismatch error.  The statement
quantifies over the arbitrary remainder of the buffer after the version
varint: the result is the same error for every such remainder, i.e. no
operator byte is consumed or examined before failing. -/
theorem claim5_version_error (lk : Lookups) (pre rest : List Nat) (u : Nat)
    (hread : readUvarint (pre ++ rest) = some (u, rest))
    (hver : zigzagDecode u ≠ 1) :
    decodePlanGistBytes lk (pre ++ rest) =
      .err ("unsupported gist version " ++ toString (zigzagDecode u) ++
        " (expected 1)") := by
  have h1 : decodeIntS { rem := pre ++ rest, stack := [] } =
      .ok (zigzagDecode u, { rem := rest, stack := [] }) := by
    simp [decodeIntS, readVarint, hread]
  simp only [decodePlanGistBytes, h1]
  rw [if_pos hver]

theorem claim5_version_error_witness :
    decodePlanGistBytes noLookups ([4] ++ [9]) =
      .err "unsupported gist version 2 (expected 1)" :=
  claim5_version_error noLookups [4] [9] 4 rfl (by decide)

/-- C9: the signed-varint decoder is the bit-exact zig-zag codec: it
reads an unsigned base-128 little-endian varint `u` and yields `u / 2`
for even `u` and `-((u + 1) / 2)` for odd `u`; consequently decoding the
(spec-modelled) zig-zag encoding of any `x` in the `int64` range yields
`x` back. -/
theorem claim9_zigzag :
    (∀ (bs : List Nat) (u : Nat) (rest : List Nat),
      readUvarint bs = some (u, rest) →
      readVarint bs =
        some ((if u % 2 = 0 then ((u / 2 : Nat) : Int)
               else -(((u + 1) / 2 : Nat) : Int)), rest)) ∧
    (∀ (x : Int) (rest : List Nat), -(2 ^ 63) ≤ x → x < 2 ^ 63 →
      readVarint (encodeSignedVarint x ++ rest) = some (x, rest)) := by
  constructor
  · intro bs u rest h
    simp only [readVarint, h]
    have hz : zigzagDecode u =
        (if u % 2 = 0 then ((u / 2 : Nat) : Int)
         else -(((u + 1) / 2 : Nat) : Int)) := by
      unfold zigzagDecode
      rw [Nat.shiftRight_eq_div_pow, pow_one]
      split_ifs <;> omega
    rw [hz]
  · intro x rest h1 h2
    exact readVarint_encodeSignedVarint x h1 h2 rest

theorem claim9_zigzag_witness :
    readVarint [5] =
      some ((if 5 % 2 = 0 then ((5 / 2 : Nat) : Int)
             else -(((5 + 1) / 2 : Nat) : Int)), []) ∧
    readVarint (encodeSignedVarint (-3) ++ []) = some (-3, []) :=
  ⟨claim9_zigzag.1 [5] 5 [] rfl,
   claim9_zigzag.2 (-3) [] (by decide) (by decide)⟩

/-- C10: when the byte buffer ends exactly where the next operator code
would be read, `decodeOp` returns the terminator value with the state
unchanged, just as it does after consuming an explicit `0x00`; the loop
therefore stops, and a buffer holding only a valid version — no
operators, no terminator — decodes successfully to a nil root with no
error. -/
theorem claim10_missing_terminator (lk : Lookups) :
    (∀ s : PState, s.rem = [] → decodeOp lk s = .ok (unknownOp, s)) ∧
    (∀ (s : PState) (rest : List Nat), s.rem = 0 :: rest →
      decodeOp lk s = .ok (unknownOp, { s with rem := rest })) ∧
    decodePlanGistBytes lk [2] = .ok none := by
  refine ⟨?_, ?_, rfl⟩
  · intro s h
    cases s with
    | mk rem stack =>
      simp only at h
      subst h
      rfl
  · intro s rest h
    cases s with
    | mk rem stack =>
      simp only at h
      subst h
      rfl

/-- C3 (counterexample): the claim says each of the four mutation
operators consumes a table id, its integer-sets, and an auto-commit
boolean.  On a buffer holding exactly one table-id varint and nothing
else, the `updateOp` body decode succeeds with the whole buffer
consumed: it never attempts the integer-sets or the auto-commit boolean
(either would have hit EOF and panicked). -/
theorem claim3_counterexample :
    decodeOperatorBody noLookups updateOp ⟨[2], []⟩ =
      .ok (⟨updateOp, [("table", GoVal.vStr "?"), ("table_id", GoVal.vInt 1)], [none]⟩,
        ⟨[], []⟩) := rfl

/-- C3 (amended): insert, delete and upsert consume, in order, a table
id, their operation-specific integer-sets (three, two, and five
respectively), and an auto-commit boolean, and pop exactly one child;
update consumes only a table id (no integer-sets, no auto-commit
boolean) and pops exactly one child. -/
theorem claim3_amended (lk : Lookups) :
    (∀ s n s', decodeOperatorBody lk insertOp s = .ok (n, s') →
      ∃ t s1 s2 s3 s4 b s5,
        decodeTable lk s = .ok (t, s1) ∧
        decodeIntSetS s1 = .ok ((), s2) ∧
        decodeIntSetS s2 = .ok ((), s3) ∧
        decodeIntSetS s3 = .ok ((), s4) ∧
        decodeBoolS s4 = .ok (b, s5) ∧
        n = ⟨insertOp, [("table", GoVal.vStr t.2), ("table_id", GoVal.vInt t.1)],
             [s5.stack.head?]⟩ ∧
        s' = { s5 with stack := s5.stack.tail }) ∧
    (∀ s n s', decodeOperatorBody lk deleteOp s = .ok (n, s') →
      ∃ t s1 s2 s3 b s4,
        decodeTable lk s = .ok (t, s1) ∧
        decodeIntSetS s1 = .ok ((), s2) ∧
        decodeIntSetS s2 = .ok ((), s3) ∧
        decodeBoolS s3 = .ok (b, s4) ∧
        n = ⟨deleteOp, [("table", GoVal.vStr t.2), ("table_id", GoVal.vInt t.1)],
             [s4.stack.head?]⟩ ∧
        s' = { s4 with stack := s4.stack.tail }) ∧
    (∀ s n s', decodeOperatorBody lk upsertOp s = .ok (n, s') →
      ∃ t s1 s2 s3 s4 s5 s6 b s7,
        decodeTable lk s = .ok (t, s1) ∧
        decodeIntSetS s1 = .ok ((), s2) ∧
        decodeIntSetS s2 = .ok ((), s3) ∧
        decodeIntSetS s3 = .ok ((), s4) ∧
        decodeIntSetS s4 = .ok ((), s5) ∧
        decodeIntSetS s5 = .ok ((), s6) ∧
        decodeBoolS s6 = .ok (b, s7) ∧
        n = ⟨upsertOp, [("table", GoVal.vStr t.2), ("table_id", GoVal.vInt t.1)],
             [s7.stack.head?]⟩ ∧
        s' = { s7 with stack := s7.stack.tail }) ∧
    (∀ s n s', decodeOperatorBody lk updateOp s = .ok (n, s') →
      ∃ t s1,
        decodeTable lk s = .ok (t, s1) ∧
        n = ⟨updateOp, [("table", GoVal.vStr t.2), ("table_id", GoVal.vInt t.1)],
             [s1.stack.head?]⟩ ∧
        s' = { s1 with stack := s1.stack.tail }) := by
  refine ⟨?_, ?_, ?_, ?_⟩
  · intro s n s' h
    unfold decodeOperatorBody at h
    norm_num [insertOp, scanOp, valuesOp, filterOp, invertedFilterOp, simpleProjectOp,
      serializingProjectOp, renderOp, hashJoinOp, mergeJoinOp, groupByOp, scalarGroupByOp,
      distinctOp, sortOp, limitOp, topKOp, indexJoinOp, lookupJoinOp, invertedJoinOp,
      unionAllOp, hashSetOpOp, streamingSetOpOp] at h
    simp only [bindD_ok] at h
    obtain ⟨t, s1, ht, u2, s2, h2, u3, s3, h3, u4, s4, h4, b, s5, h5, h⟩ := h
    rw [popChildS_eq] at h
    simp only [Except.ok.injEq, Prod.mk.injEq] at h
    exact ⟨t, s1, s2, s3, s4, b, s5, ht, h2, h3, h4, h5, h.1.symm, h.2.symm⟩
  · intro s n s' h
    unfold decodeOperatorBody at h
    norm_num [deleteOp, scanOp, valuesOp, filterOp, invertedFilterOp, simpleProjectOp,
      serializingProjectOp, renderOp, hashJoinOp, mergeJoinOp, groupByOp, scalarGroupByOp,
      distinctOp, sortOp, limitOp, topKOp, indexJoinOp, lookupJoinOp, invertedJoinOp,
      unionAllOp, hashSetOpOp, streamingSetOpOp, insertOp, updateOp] at h
    simp only [bindD_ok] at h
    obtain ⟨t, s1, ht, u2, s2, h2, u3, s3, h3, b, s4, h4, h⟩ := h
    rw [popChildS_eq] at h
    simp only [Except.ok.injEq, Prod.mk.injEq] at h
    exact ⟨t, s1, s2, s3, b, s4, ht, h2, h3, h4, h.1.symm, h.2.symm⟩
  · intro s n s' h
    unfold decodeOperatorBody at h
    norm_num [upsertOp, scanOp, valuesOp, filterOp, invertedFilterOp, simpleProjectOp,
      serializingProjectOp, renderOp, hashJoinOp, mergeJoinOp, groupByOp, scalarGroupByOp,
      distinctOp, sortOp, limitOp, topKOp, indexJoinOp, lookupJoinOp, invertedJoinOp,
      unionAllOp, hashSetOpOp, streamingSetOpOp, insertOp, updateOp, deleteOp] at h
    simp only [bindD_ok] at h
    obtain ⟨t, s1, ht, u2, s2, h2, u3, s3, h3, u4, s4, h4, u5, s5, h5, u6, s6, h6, b, s7,
      h7, h⟩ := h
    rw [popChildS_eq] at h
    simp only [Except.ok.injEq, Prod.mk.injEq] at h
    exact ⟨t, s1, s2, s3, s4, s5, s6, b, s7, ht, h2, h3, h4, h5, h6, h7, h.1.symm, h.2.symm⟩
  · intro s n s' h
    unfold decodeOperatorBody at h
    norm_num [updateOp, scanOp, valuesOp, filterOp, invertedFilterOp, simpleProjectOp,
      serializingProjectOp, renderOp, hashJoinOp, mergeJoinOp, groupByOp, scalarGroupByOp,
      distinctOp, sortOp, limitOp, topKOp, indexJoinOp, lookupJoinOp, invertedJoinOp,
      unionAllOp, hashSetOpOp, streamingSetOpOp, insertOp] at h
    rw [bindD_ok] at h
    obtain ⟨t, s1, ht, h⟩ := h
    rw [popChildS_eq] at h
    simp only [Except.ok.injEq, Prod.mk.injEq] at h
    exact ⟨t, s1, ht, h.1.symm, h.2.symm⟩

theorem claim3_amended_witness :
    (∃ t s1 s2 s3 s4 b s5,
      decodeTable noLookups ⟨[2, 0, 0, 0, 0, 0, 0, 1], []⟩ = .ok (t, s1) ∧
      decodeIntSetS s1 = .ok ((), s2) ∧
      decodeIntSetS s2 = .ok ((), s3) ∧
      decodeIntSetS s3 = .ok ((), s4) ∧
      decodeBoolS s4 = .ok (b, s5) ∧
      (⟨insertOp, [("table", GoVal.vStr "?"), ("table_id", GoVal.vInt 1)], [none]⟩ : Node) =
        ⟨insertOp, [("table", GoVal.vStr t.2), ("table_id", GoVal.vInt t.1)],
         [s5.stack.head?]⟩ ∧
      (⟨[], []⟩ : PState) = { s5 with stack := s5.stack.tail }) ∧
    (∃ t s1 s2 s3 b s4,
      decodeTable noLookups ⟨[2, 0, 0, 0, 0, 1], []⟩ = .ok (t, s1) ∧
      decodeIntSetS s1 = .ok ((), s2) ∧
      decodeIntSetS s2 = .ok ((), s3) ∧
      decodeBoolS s3 = .ok (b, s4) ∧
      (⟨deleteOp, [("table", GoVal.vStr "?"), ("table_id", GoVal.vInt 1)], [none]⟩ : Node) =
        ⟨deleteOp, [("table", GoVal.vStr t.2), ("table_id", GoVal.vInt t.1)],
         [s4.stack.head?]⟩ ∧
      (⟨[], []⟩ : PState) = { s4 with stack := s4.stack.tail }) ∧
    (∃ t s1 s2 s3 s4 s5 s6 b s7,
      decodeTable noLookups ⟨[2, 0, 0, 0, 0, 0, 0, 0, 0, 0, 0, 1], []⟩ = .ok (t, s1) ∧
      decodeIntSetS s1 = .ok ((), s2) ∧
      decodeIntSetS s2 = .ok ((), s3) ∧
      decodeIntSetS s3 = .ok ((), s4) ∧
      decodeIntSetS s4 = .ok ((), s5) ∧
      decodeIntSetS s5 = .ok ((), s6) ∧
      decodeBoolS s6 = .ok (b, s7) ∧
      (⟨upsertOp, [("table", GoVal.vStr "?"), ("table_id", GoVal.vInt 1)], [none]⟩ : Node) =
        ⟨upsertOp, [("table", GoVal.vStr t.2), ("table_id", GoVal.vInt t.1)],
         [s7.stack.head?]⟩ ∧
      (⟨[], []⟩ : PState) = { s7 with stack := s7.stack.tail }) ∧
    (∃ t s1,
      decodeTable noLookups ⟨[2], []⟩ = .ok (t, s1) ∧
      (⟨updateOp, [("table", GoVal.vStr "?"), ("table_id", GoVal.vInt 1)], [none]⟩ : Node) =
        ⟨updateOp, [("table", GoVal.vStr t.2), ("table_id", GoVal.vInt t.1)],
         [s1.stack.head?]⟩ ∧
      (⟨[], []⟩ : PState) = { s1 with stack := s1.stack.tail }) :=
  ⟨(claim3_amended noLookups).1 ⟨[2, 0, 0, 0, 0, 0, 0, 1], []⟩ _ ⟨[], []⟩ rfl,
   (claim3_amended noLookups).2.1 ⟨[2, 0, 0, 0, 0, 1], []⟩ _ ⟨[], []⟩ rfl,
   (claim3_amended noLookups).2.2.1 ⟨[2, 0, 0, 0, 0, 0, 0, 0, 0, 0, 0, 1], []⟩ _ ⟨[], []⟩ rfl,
   (claim3_amended noLookups).2.2.2 ⟨[2], []⟩ _ ⟨[], []⟩ rfl⟩

/-- C4 (counterexample): the claim says no decode succeeds while leaving
extra unconsumed nodes on the stack.  On version byte `2` followed by two
complete `valuesOp` records and the terminator, the decode loop ends
with two nodes on the stack, yet `DecodePlanGist` succeeds, returning the
top node and silently discarding the other. -/
theorem claim4_counterexample :
    decodePlanGistBytes noLookups [2, 2, 0, 0, 2, 0, 0, 0] =
      .ok (some ⟨valuesOp, [("rows", GoVal.vInt 0), ("columns", GoVal.vInt 0)], []⟩) ∧
    decodeLoop noLookups 8 ⟨[2, 0, 0, 2, 0, 0, 0], []⟩ [] =
      .ok (⟨[], [⟨valuesOp, [("rows", GoVal.vInt 0), ("columns", GoVal.vInt 0)], []⟩,
                 ⟨valuesOp, [("rows", GoVal.vInt 0), ("columns", GoVal.vInt 0)], []⟩]⟩,
           []) :=
  ⟨rfl, rfl⟩

/-- C4 (amended): after every successful top-level decode, the returned
root is the top of the final Decode Stack — `nil` when the stack is
empty — with the collected check nodes attached under the synthetic
wrapper when present; the decode does not require the stack to hold
exactly one node, and any nodes below the top are silently discarded. -/
theorem claim4_amended (lk : Lookups) (b : List Nat) (r : Option Node)
    (h : decodePlanGistBytes lk b = .ok r) :
    ∃ (s1 st : PState) (chks : List (Option Node)),
      decodeIntS { rem := b, stack := [] } = .ok (1, s1) ∧
      decodeLoop lk (s1.rem.length + 1) s1 [] = .ok (st, chks) ∧
      ((chks = [] ∧ r = st.stack.head?) ∨
       (chks ≠ [] ∧ r = some ⟨unknownOp, [("checks", GoVal.vInt chks.length)],
          st.stack.head? :: chks⟩)) := by
  cases hv : decodeIntS { rem := b, stack := [] } with
  | error e =>
    rw [decodePlanGistBytes_panicVersion lk b e hv] at h
    exact Outcome.noConfusion h
  | ok p =>
    obtain ⟨ver, s1⟩ := p
    by_cases hver : ver = 1
    · subst hver
      cases hl : decodeLoop lk (s1.rem.length + 1) s1 [] with
      | error e =>
        rw [decodePlanGistBytes_loopPanic lk b s1 e hv hl] at h
        exact Outcome.noConfusion h
      | ok q =>
        obtain ⟨st, chks⟩ := q
        rw [decodePlanGistBytes_split lk b s1 st chks hv hl] at h
        refine ⟨s1, st, chks, rfl, hl, ?_⟩
        cases chks with
        | nil =>
          rw [if_neg (by simp)] at h
          injection h with h1
          exact Or.inl ⟨rfl, h1.symm⟩
        | cons c cs =>
          rw [if_pos (by simp)] at h
          injection h with h1
          exact Or.inr ⟨by simp, h1.symm⟩
    · rw [decodePlanGistBytes_afterVersion lk b ver s1 hv, if_pos hver] at h
      exact Outcome.noConfusion h

theorem claim4_amended_witness :
    ∃ (s1 st : PState) (chks : List (Option Node)),
      decodeIntS { rem := [2, 2, 0, 0, 0], stack := [] } = .ok (1, s1) ∧
      decodeLoop noLookups (s1.rem.length + 1) s1 [] = .ok (st, chks) ∧
      ((chks = [] ∧
        (some ⟨valuesOp, [("rows", GoVal.vInt 0), ("columns", GoVal.vInt 0)], []⟩ :
          Option Node) = st.stack.head?) ∨
       (chks ≠ [] ∧
        (some ⟨valuesOp, [("rows", GoVal.vInt 0), ("columns", GoVal.vInt 0)], []⟩ :
          Option Node) = some ⟨unknownOp, [("checks", GoVal.vInt chks.length)],
          st.stack.head? :: chks⟩)) :=
  claim4_amended noLookups [2, 2, 0, 0, 0] _ rfl

/-- C6: check handling.  First, one decode-loop step on an
`errorIfRowsOp` opcode removes the freshly pushed check node from the
stack in the same iteration — the continuation runs on the stack with
only the check's own child popped, so no later operator can consume the
check node — and appends it to the auxiliary check list.  Second,
whenever the loop ends with a non-empty check list, the returned value
is the synthetic wrapper: operator `unknownOp`, one `checks` attribute
holding the count, and children `[root, check_1, …]`. -/
theorem claim6_checks (lk : Lookups) :
    (∀ (fuel : Nat) (tail : List Nat) (stack : List Node)
        (checks : List (Option Node)),
      decodeLoop lk (fuel + 1) ⟨errorIfRowsOp :: tail, stack⟩ checks =
        decodeLoop lk fuel ⟨tail, stack.tail⟩
          (checks ++ [some ⟨errorIfRowsOp, [], [stack.head?]⟩])) ∧
    (∀ (b : List Nat) (s1 st : PState) (chks : List (Option Node)),
      decodeIntS { rem := b, stack := [] } = .ok (1, s1) →
      decodeLoop lk (s1.rem.length + 1) s1 [] = .ok (st, chks) →
      chks ≠ [] →
      decodePlanGistBytes lk b =
        .ok (some ⟨unknownOp, [("checks", GoVal.vInt chks.length)],
          st.stack.head? :: chks⟩)) := by
  constructor
  · intro fuel tail stack checks
    cases stack <;> rfl
  · intro b s1 st chks h1 h2 h3
    rw [decodePlanGistBytes_split lk b s1 st chks h1 h2]
    rw [if_pos (by cases chks with | nil => exact absurd rfl h3 | cons c cs => simp)]

theorem claim6_checks_witness :
    (decodeLoop noLookups 1 ⟨[errorIfRowsOp], []⟩ [] =
      decodeLoop noLookups 0 ⟨[], []⟩ [some ⟨errorIfRowsOp, [], [none]⟩]) ∧
    decodePlanGistBytes noLookups [2, 2, 0, 0, 42, 0] =
      .ok (some ⟨unknownOp, [("checks", GoVal.vInt 1)],
        none :: [some ⟨errorIfRowsOp, [],
          [some ⟨valuesOp, [("rows", GoVal.vInt 0), ("columns", GoVal.vInt 0)], []⟩]⟩]⟩) :=
  ⟨(claim6_checks noLookups).1 0 [] [] [],
   (claim6_checks noLookups).2 [2, 2, 0, 0, 42, 0] ⟨[2, 0, 0, 42, 0], []⟩ ⟨[], []⟩
     [some ⟨errorIfRowsOp, [],
       [some ⟨valuesOp, [("rows", GoVal.vInt 0), ("columns", GoVal.vInt 0)], []⟩]⟩]
     rfl rfl (by simp)⟩

theorem decodeNodeColumnOrdinalsS_single (a : Nat) (ha : a < 0x80) (rest : List Nat)
    (stk : List Node) :
    decodeNodeColumnOrdinalsS ⟨a :: rest, stk⟩ =
      .ok ((if zigzagDecode a < 0 then none else some (zigzagDecode a).toNat),
        ⟨rest, stk⟩) := by
  simp [decodeNodeColumnOrdinalsS, bindD, decodeIntS_single a ha rest stk]

/-- C7: with at least two nodes on the Decode Stack (`y` on top, pushed
after `x`), each binary operator — union all, hash set op, streaming set
op, hash join, merge join — pops the top node first as the right subtree
and attaches the children as `[left, right] = [some x, some y]`, with
`x`, the node pushed earlier, on the left.  For the two joins the buffer
carries the operator's fields (join-type byte, then for hash join two
single-byte ordinal-count varints and two key bytes); the argument list
is existentially quantified since only the child order is at stake. -/
theorem claim7_binary_children (lk : Lookups) (x y : Node) (rest : List Node) :
    (∀ rem : List Nat, decodeOperatorBody lk unionAllOp ⟨rem, y :: x :: rest⟩ =
      .ok (⟨unionAllOp, [], [some x, some y]⟩, ⟨rem, rest⟩)) ∧
    (∀ rem : List Nat, decodeOperatorBody lk hashSetOpOp ⟨rem, y :: x :: rest⟩ =
      .ok (⟨hashSetOpOp, [], [some x, some y]⟩, ⟨rem, rest⟩)) ∧
    (∀ rem : List Nat, decodeOperatorBody lk streamingSetOpOp ⟨rem, y :: x :: rest⟩ =
      .ok (⟨streamingSetOpOp, [], [some x, some y]⟩, ⟨rem, rest⟩)) ∧
    (∀ (jt a b k1 k2 : Nat) (tail : List Nat), a < 0x80 → b < 0x80 →
      ∃ args, decodeOperatorBody lk hashJoinOp
          ⟨jt :: a :: b :: k1 :: k2 :: tail, y :: x :: rest⟩ =
        .ok (⟨hashJoinOp, args, [some x, some y]⟩, ⟨tail, rest⟩)) ∧
    (∀ (jt k1 k2 : Nat) (tail : List Nat),
      ∃ args, decodeOperatorBody lk mergeJoinOp ⟨jt :: k1 :: k2 :: tail, y :: x :: rest⟩ =
        .ok (⟨mergeJoinOp, args, [some x, some y]⟩, ⟨tail, rest⟩)) := by
  refine ⟨fun rem => rfl, fun rem => rfl, fun rem => rfl, ?_, fun jt k1 k2 tail => ⟨_, rfl⟩⟩
  intro jt a b k1 k2 tail ha hb
  exact ⟨_, by
    unfold decodeOperatorBody
    norm_num [hashJoinOp, scanOp, valuesOp, filterOp, invertedFilterOp, simpleProjectOp,
      serializingProjectOp, renderOp]
    rw [show decodeJoinTypeS ⟨jt :: a :: b :: k1 :: k2 :: tail, y :: x :: rest⟩ =
        .ok (joinTypeName jt, ⟨a :: b :: k1 :: k2 :: tail, y :: x :: rest⟩) from rfl]
    simp only [bindD]
    rw [decodeNodeColumnOrdinalsS_single a ha]
    simp only [bindD]
    rw [decodeNodeColumnOrdinalsS_single b hb]
    simp only [bindD]
    rfl⟩

theorem claim7_binary_children_witness :
    (decodeOperatorBody noLookups unionAllOp
        ⟨[], [⟨scanOp, [], []⟩, ⟨valuesOp, [], []⟩]⟩ =
      .ok (⟨unionAllOp, [], [some ⟨valuesOp, [], []⟩, some ⟨scanOp, [], []⟩]⟩,
        ⟨[], []⟩)) ∧
    (∃ args, decodeOperatorBody noLookups hashJoinOp
        ⟨[0, 2, 2, 1, 0], [⟨scanOp, [], []⟩, ⟨valuesOp, [], []⟩]⟩ =
      .ok (⟨hashJoinOp, args, [some ⟨valuesOp, [], []⟩, some ⟨scanOp, [], []⟩]⟩,
        ⟨[], []⟩)) ∧
    (∃ args, decodeOperatorBody noLookups mergeJoinOp
        ⟨[0, 1, 0], [⟨scanOp, [], []⟩, ⟨valuesOp, [], []⟩]⟩ =
      .ok (⟨mergeJoinOp, args, [some ⟨valuesOp, [], []⟩, some ⟨scanOp, [], []⟩]⟩,
        ⟨[], []⟩)) :=
  ⟨(claim7_binary_children noLookups ⟨valuesOp, [], []⟩ ⟨scanOp, [], []⟩ []).1 [],
   (claim7_binary_children noLookups ⟨valuesOp, [], []⟩ ⟨scanOp, [], []⟩ []).2.2.2.1
     0 2 2 1 0 [] (by omega) (by omega),
   (claim7_binary_children noLookups ⟨valuesOp, [], []⟩ ⟨scanOp, [], []⟩ []).2.2.2.2
     0 1 0 []⟩

/-- C8: formatting a scan node as the decoder builds it (`table`/`index`
names plus `decodeScanParams` output, no children): the `table:` line is
always emitted; with a positive span count the `spans:` line is
`spans: <n>+ spans` — the first whitespace token of the stored
representation plus the literal `+ spans` suffix, taken because that
representation always contains a space, i.e. more than one token, as the
second conjunct states (`[toString ns, t2]`, two tokens) — with zero (or
negative) spans the line is `spans: FULL SCAN`; and a `limit: limited`
line appears exactly when the hard-limit attribute is present
(`hl ≠ 0`). -/
theorem claim8_scan_format (tname iname : String) (tid iid ns ni hl : Int)
    (pfx : String) (last : Bool) :
    (formatNode (some ⟨scanOp,
      [("table", GoVal.vStr tname), ("index", GoVal.vStr iname),
       ("table_id", GoVal.vInt tid), ("index_id", GoVal.vInt iid)] ++
        scanParamsOf ns ni hl,
      []⟩) pfx last =
    "• scan\n" ++ ("  table: " ++ tname ++ "@" ++ iname ++ "\n") ++
    (if 0 < ns then "  spans: " ++ toString ns ++ "+ spans\n"
     else "  spans: FULL SCAN\n") ++
    (if hl ≠ 0 then "  limit: limited\n" else "")) ∧
    (0 < ns → ∃ t2, goFields (if ns = 1 then "1 span" else toString ns ++ " spans") =
      [toString ns, t2]) := by
  constructor
  · have hskip : ¬(scanOp = simpleProjectOp ∨ scanOp = serializingProjectOp) := by decide
    simp only [formatNode, hskip, if_false, List.length_nil, List.length_append]
    by_cases hns : 0 < ns
    · obtain ⟨hcontains, t2, hfields⟩ := spanValue_head ns hns
      simp only [attrLines, scanOp, scanParamsOf, argSprint, findArg, goSprint,
        opNameOf, hns, if_pos, if_true, hcontains, hfields]
      by_cases hhl : hl ≠ 0 <;> by_cases hni : 0 < ni <;>
        simp [hhl, hni, findArg, goSprint, formatChildren, hcontains, hfields,
          String.append_assoc] <;> rfl
    · simp only [attrLines, scanOp, scanParamsOf, argSprint, findArg, goSprint,
        opNameOf, hns, if_neg, if_false]
      by_cases hhl : hl ≠ 0 <;> by_cases hni : 0 < ni <;>
        simp [hhl, hni, findArg, goSprint, formatChildren, String.append_assoc] <;> rfl
  · intro hns
    exact (spanValue_head ns hns).2

theorem claim8_scan_format_witness :
    (formatNode (some ⟨scanOp,
      [("table", GoVal.vStr "?"), ("index", GoVal.vStr "?"),
       ("table_id", GoVal.vInt 112), ("index_id", GoVal.vInt 1)] ++
        scanParamsOf 3 0 0,
      []⟩) "" true =
    "• scan\n" ++ ("  table: " ++ "?" ++ "@" ++ "?" ++ "\n") ++
    (if 0 < (3 : Int) then "  spans: " ++ toString (3 : Int) ++ "+ spans\n"
     else "  spans: FULL SCAN\n") ++
    (if (0 : Int) ≠ 0 then "  limit: limited\n" else "")) ∧
    (∃ t2, goFields (if (3 : Int) = 1 then "1 span" else toString (3 : Int) ++ " spans") =
      [toString (3 : Int), t2]) :=
  ⟨(claim8_scan_format "?" "?" 112 1 3 0 0 "" true).1,
   (claim8_scan_format "?" "?" 112 1 3 0 0 "" true).2 (by decide)⟩

theorem claim10_missing_terminator_witness :
    decodeOp noLookups ⟨[], []⟩ = .ok (unknownOp, ⟨[], []⟩) ∧
    decodeOp noLookups ⟨[0, 7], []⟩ = .ok (unknownOp, ⟨[7], []⟩) ∧
    decodePlanGistBytes noLookups [2] = .ok none :=
  ⟨(claim10_missing_terminator noLookups).1 ⟨[], []⟩ rfl,
   (claim10_missing_terminator noLookups).2.1 ⟨[0, 7], []⟩ [7] rfl,
   (claim10_missing_terminator noLookups).2.2⟩

end GistDecoder
